import Mathlib

/-!
Verification of the xBRZ upscaler core (`src/wasm/xbrz/mod.rs`,
`src/wasm/xbrz/ycbcr_lookup.rs`) against its natural-language
specification.  Machine integers are modelled as `Nat`/`Int` with explicit
wraparound where the Rust code casts; a Rust panic is modelled as `none`;
the per-factor scaler bodies (`scaler.rs`, absent from the snapshot) are a
parameter of the driver, constrained only by the fact that a Rust
`&mut [P]` slice cannot change length.
-/

/-- Modelled from the spec: `pixel.rs` is absent from the snapshot.  §3 and
§6 fix the pixel model: four 8-bit channels in R,G,B,A order, four bytes per
pixel. -/
structure Rgba8 where
  r : Nat
  g : Nat
  b : Nat
  a : Nat
deriving DecidableEq

instance : Inhabited Rgba8 := ⟨⟨0, 0, 0, 0⟩⟩

/-- The `alpha()` accessor of the pixel trait. -/
def Rgba8.alpha (p : Rgba8) : Nat := p.a

/-- Modelled from the spec: `config.rs` is absent from the snapshot.  §3
gives four real-valued tunable parameters with defaults 30.0, 4.0, 3.6,
2.2; the driver code modelled here never computes with them, so rationals
represent them. -/
structure ScalerConfig where
  equal_color_tolerance : Rat
  center_direction_bias : Rat
  dominant_direction_threshold : Rat
  steep_direction_threshold : Rat
deriving DecidableEq

/-- The default configuration (30.0, 4.0, 3.6, 2.2). -/
def defaultConfig : ScalerConfig := ⟨30, 4, 18 / 5, 11 / 5⟩

/-- `as i8` applied to a wider signed integer: two's-complement wrap into
[-128, 127]. -/
def i16_as_i8 (v : Int) : Int := (v + 128).emod 256 - 128

/-- `as u8` applied to an `i8` value: bitwise reinterpretation into
[0, 255]. -/
def i8_as_u8 (v : Int) : Nat := (v.emod 256).toNat

/-- `u8_as_i8` from `ycbcr_lookup.rs`: reinterpret `u8` bits as `i8`. -/
def u8_as_i8 (v : Nat) : Int := if v < 128 then (v : Int) else (v : Int) - 256

/-- The per-channel quantity `(((c1 as i16) - (c2 as i16)) / 2) as i8 as u8`
computed at the top of `YCbCrLookup::dist_rgb`.  Rust `i16` division
truncates toward zero, matching `Int.div`. -/
def diffHalfByte (x y : Nat) : Nat := i8_as_u8 (i16_as_i8 (Int.tdiv ((x : Int) - (y : Int)) 2))

/-- The 15-bit table index built inside `YCbCrLookup::dist_rgb`:
`((r_part >> 3) << 10) | ((g_part >> 3) << 5) | (b_part >> 3)`. -/
def dist_rgb_index (r1 g1 b1 r2 g2 b2 : Nat) : Nat :=
  ((diffHalfByte r1 r2 >>> 3) <<< 10) ||| ((diffHalfByte g1 g2 >>> 3) <<< 5)
    ||| (diffHalfByte b1 b2 >>> 3)

/-- `YCbCrLookup::dist_rgb` for the `IDiff555` variant: quantize the channel
half-differences into a 15-bit key and read the lookup table there.  The
`get_unchecked` access is modelled with a default of 0; the index is proved
in bounds separately. -/
def YCbCrLookup.dist_rgb (lookup : List Nat) (r1 g1 b1 r2 g2 b2 : Nat) : Nat :=
  lookup.getD (dist_rgb_index r1 g1 b1 r2 g2 b2) 0

/-- `YCbCrLookup::new_small`, parametric in the per-entry distance function
`f` (the Rust `dist_ycbcr` computes with `f64`; every claim below holds for
an arbitrary entry function).  Entry `i` stores the distance of the
sign-extended, doubled channel differences recovered from the key `i`. -/
def YCbCrLookup.new_small (f : Int → Int → Int → Nat) : List Nat :=
  (List.range 0x8000).map fun i =>
    f (u8_as_i8 (((((i >>> 10) &&& 0x1F) <<< 3)) % 256) * 2)
      (u8_as_i8 (((((i >>> 5) &&& 0x1F) <<< 3)) % 256) * 2)
      (u8_as_i8 ((((i &&& 0x1F) <<< 3)) % 256) * 2)

/-- `YCbCrLookup::dist`: RGB table distance, combined with the alpha
channels when either pixel is not fully opaque; `(d * a_min) >> 8` with the
source's note that `>> 8` approximates `/ 255`, plus `a_diff * 65280`. -/
def YCbCrLookup.dist (lookup : List Nat) (pix1 pix2 : Rgba8) : Nat :=
  let a1 := pix1.alpha
  let a2 := pix2.alpha
  if a1 = 255 ∧ a2 = 255 then
    YCbCrLookup.dist_rgb lookup pix1.r pix1.g pix1.b pix2.r pix2.g pix2.b
  else
    let d := YCbCrLookup.dist_rgb lookup pix1.r pix1.g pix1.b pix2.r pix2.g pix2.b
    let p := if a1 < a2 then (a1, a2 - a1) else (a2, a1 - a2)
    ((d * p.1) >>> 8) + p.2 * 65280

/-- The alpha-combination formula exactly as the spec words it:
`(rgb_distance * min(alpha1, alpha2)) / 255 + |alpha1 - alpha2| * 255`
expressed in the 8-fractional-bit fixed-point domain (the alpha term
contributing `|alpha1 - alpha2| * 255 * 256` units). -/
def dist_spec_claimed (lookup : List Nat) (pix1 pix2 : Rgba8) : Nat :=
  if pix1.alpha = 255 ∧ pix2.alpha = 255 then
    YCbCrLookup.dist_rgb lookup pix1.r pix1.g pix1.b pix2.r pix2.g pix2.b
  else
    YCbCrLookup.dist_rgb lookup pix1.r pix1.g pix1.b pix2.r pix2.g pix2.b
        * min pix1.alpha pix2.alpha / 255
      + (max pix1.alpha pix2.alpha - min pix1.alpha pix2.alpha) * 255 * 256

/-- The alpha-combination formula as amended: the first term divides by 256
(a shift-right-by-8 approximation of division by 255). -/
def dist_spec_amended (lookup : List Nat) (pix1 pix2 : Rgba8) : Nat :=
  if pix1.alpha = 255 ∧ pix2.alpha = 255 then
    YCbCrLookup.dist_rgb lookup pix1.r pix1.g pix1.b pix2.r pix2.g pix2.b
  else
    YCbCrLookup.dist_rgb lookup pix1.r pix1.g pix1.b pix2.r pix2.g pix2.b
        * min pix1.alpha pix2.alpha / 256
      + (max pix1.alpha pix2.alpha - min pix1.alpha pix2.alpha) * 255 * 256

/-- Modelled from the spec (§6): `pixel.rs` is absent from the snapshot;
each pixel occupies 4 consecutive bytes in R,G,B,A order.  This is the
`source.align_to::<Rgba8>()` reinterpretation of the byte buffer; a
trailing fragment shorter than one pixel is not part of the aligned
middle. -/
def bytesToPixels : List Nat → List Rgba8
  | r :: g :: b :: a :: rest => ⟨r, g, b, a⟩ :: bytesToPixels rest
  | _ => []

/-- Modelled from the spec (§6): the inverse reinterpretation used by the
final `Vec::from_raw_parts`, flattening pixels back into R,G,B,A bytes. -/
def pixelsToBytes : List Rgba8 → List Nat
  | [] => []
  | p :: rest => p.r :: p.g :: p.b :: p.a :: pixelsToBytes rest

/-- `scale_with_config` from `mod.rs`, monomorphised at `Rgba8`.  A failed
`assert!`/`assert_eq!` (a Rust panic) is `none`.  The five `ScalerNx`
bodies live in `scaler.rs`, absent from the snapshot; they mutate the
destination slice in place, so they are modelled by a parameter
`scaleImage : factor → src → dst → width → height → config → dst`. -/
def scale_with_config
    (scaleImage : Nat → List Rgba8 → List Rgba8 → Nat → Nat → ScalerConfig → List Rgba8)
    (source : List Nat) (src_width src_height factor : Nat) (config : ScalerConfig) :
    Option (List Nat) :=
  if src_width = 0 ∨ src_height = 0 then some [] else
  if source.length ≠ src_width * src_height * 4 then none else
  let src_argb := bytesToPixels source
  if src_argb.length ≠ src_width * src_height then none else
  if ¬ factor > 0 then none else
  if ¬ factor ≤ 6 then none else
  let dst_argb :=
    if factor = 1 then src_argb
    else
      scaleImage factor src_argb
        (List.replicate (src_width * src_height * factor * factor) default)
        src_width src_height config
  some (pixelsToBytes dst_argb)

/-- `xbrz_upscale` from `mod.rs`: clamp the scale to [1, 6], return a copy
of the input at clamped scale 1, otherwise run the core through
`scale_rgba_config`. -/
def xbrz_upscale
    (scaleImage : Nat → List Rgba8 → List Rgba8 → Nat → Nat → ScalerConfig → List Rgba8)
    (input : List Nat) (src_w src_h scale : Nat)
    (equal_color_tolerance center_direction_bias
      dominant_direction_threshold steep_direction_threshold : Rat) :
    Option (List Nat) :=
  let scale := min (max scale 1) 6
  if scale = 1 then some input
  else
    scale_with_config scaleImage input src_w src_h scale
      ⟨equal_color_tolerance, center_direction_bias,
        dominant_direction_threshold, steep_direction_threshold⟩

/-- A trivially length-preserving scaler instance used to exercise the
driver at concrete inputs. -/
def idScaleImage : Nat → List Rgba8 → List Rgba8 → Nat → Nat → ScalerConfig → List Rgba8 :=
  fun _ _ dst _ _ _ => dst

example : diffHalfByte 0 0 = 0 := by decide
example : diffHalfByte 0 255 = 129 := by decide
example : diffHalfByte 255 0 = 127 := by decide
example : dist_rgb_index 255 255 255 0 0 0 = 15 * 1024 + 15 * 32 + 15 := by decide
example : Int.tdiv (-7) 2 = -3 := by decide
example :
    scale_with_config idScaleImage [1, 2, 3, 4] 0 0 1 defaultConfig = some [] := by decide
example :
    scale_with_config idScaleImage [1, 2, 3, 4] 1 1 1 defaultConfig =
      some [1, 2, 3, 4] := by decide
example :
    scale_with_config idScaleImage [1, 2, 3, 4] 1 1 7 defaultConfig = none := by decide

lemma bytesToPixels_length (s : List Nat) : (bytesToPixels s).length = s.length / 4 := by
  induction s using bytesToPixels.induct with
  | case1 r g b a rest ih =>
    simp [bytesToPixels, ih]
    omega
  | case2 s h =>
    match s, h with
    | [], _ => simp [bytesToPixels]
    | [x], _ => simp [bytesToPixels]
    | [x, y], _ => simp [bytesToPixels]
    | [x, y, z], _ => simp [bytesToPixels]
    | x :: y :: z :: w :: rest, h => exact (h x y z w rest rfl).elim

lemma pixelsToBytes_length (l : List Rgba8) : (pixelsToBytes l).length = 4 * l.length := by
  induction l with
  | nil => simp [pixelsToBytes]
  | cons p rest ih => simp [pixelsToBytes, ih]; omega

lemma pixelsToBytes_bytesToPixels (s : List Nat) (h : s.length % 4 = 0) :
    pixelsToBytes (bytesToPixels s) = s := by
  induction s using bytesToPixels.induct with
  | case1 r g b a rest ih =>
    have hr : rest.length % 4 = 0 := by simp at h; omega
    simp [bytesToPixels, pixelsToBytes, ih hr]
  | case2 s hs =>
    match s, hs with
    | [], _ => simp [bytesToPixels, pixelsToBytes]
    | [x], _ => simp at h
    | [x, y], _ => simp at h
    | [x, y, z], _ => simp at h
    | x :: y :: z :: w :: rest, hs => exact (hs x y z w rest rfl).elim

lemma i8_as_u8_lt (v : Int) : i8_as_u8 v < 256 := by
  unfold i8_as_u8
  have h1 : 0 ≤ v.emod 256 := Int.emod_nonneg _ (by norm_num)
  have h2 : v.emod 256 < 256 := Int.emod_lt_of_pos _ (by norm_num)
  omega

lemma diffHalfByte_lt (x y : Nat) : diffHalfByte x y < 256 := i8_as_u8_lt _

lemma key_decomp (a b c : Nat) (ha : a < 32) (hb : b < 32) (hc : c < 32) :
    (a <<< 10) ||| (b <<< 5) ||| c = a * 1024 + b * 32 + c := by
  rw [Nat.shiftLeft_eq, Nat.shiftLeft_eq]
  have e1 : a * 2 ^ 10 ||| b * 2 ^ 5 = a * 2 ^ 10 + b * 2 ^ 5 := by
    have hb10 : b * 2 ^ 5 < 2 ^ 10 := by omega
    rw [Nat.mul_comm a]
    exact (Nat.mul_add_lt_is_or hb10 a).symm
  rw [e1]
  have e2 : a * 2 ^ 10 + b * 2 ^ 5 = 2 ^ 5 * (a * 32 + b) := by ring
  rw [e2, ← Nat.mul_add_lt_is_or hc (a * 32 + b)]
  ring

lemma key_fields (a b c : Nat) (ha : a < 32) (hb : b < 32) (hc : c < 32) :
    ((a * 1024 + b * 32 + c) >>> 10) &&& 0x1F = a ∧
      ((a * 1024 + b * 32 + c) >>> 5) &&& 0x1F = b ∧
      (a * 1024 + b * 32 + c) &&& 0x1F = c := by
  have h31 : (0x1F : Nat) = 2 ^ 5 - 1 := rfl
  rw [Nat.shiftRight_eq_div_pow, Nat.shiftRight_eq_div_pow, h31,
    Nat.and_pow_two_sub_one_eq_mod, Nat.and_pow_two_sub_one_eq_mod,
    Nat.and_pow_two_sub_one_eq_mod]
  refine ⟨?_, ?_, ?_⟩ <;> omega

lemma new_small_length (f : Int → Int → Int → Nat) : (YCbCrLookup.new_small f).length = 0x8000 := by
  simp [YCbCrLookup.new_small]

lemma new_small_getD (f : Int → Int → Int → Nat) (i : Nat) (hi : i < 0x8000) :
    (YCbCrLookup.new_small f).getD i 0 =
      f (u8_as_i8 ((((i >>> 10) &&& 0x1F) <<< 3) % 256) * 2)
        (u8_as_i8 ((((i >>> 5) &&& 0x1F) <<< 3) % 256) * 2)
        (u8_as_i8 (((i &&& 0x1F) <<< 3) % 256) * 2) := by
  unfold YCbCrLookup.new_small
  rw [List.getD_eq_getElem _ _ (by simpa using hi)]
  simp

lemma shiftLeft3_mod_256 (x : Nat) (hx : x < 32) : (x <<< 3) % 256 = x <<< 3 := by
  apply Nat.mod_eq_of_lt
  rw [Nat.shiftLeft_eq]
  omega

lemma shiftRight3_lt_32 (x : Nat) (hx : x < 256) : x >>> 3 < 32 := by
  rw [Nat.shiftRight_eq_div_pow]
  omega

/-- C9: the 15-bit key computed inside `YCbCrLookup.dist_rgb` never exceeds 0x7FFF, so
the `get_unchecked` read into the 0x8000-entry table is in bounds for every
pair of inputs. -/
theorem dist_rgb_index_lt (r1 g1 b1 r2 g2 b2 : Nat) :
    dist_rgb_index r1 g1 b1 r2 g2 b2 < 0x8000 := by
  unfold dist_rgb_index
  rw [key_decomp _ _ _ (shiftRight3_lt_32 _ (diffHalfByte_lt r1 r2))
    (shiftRight3_lt_32 _ (diffHalfByte_lt g1 g2))
    (shiftRight3_lt_32 _ (diffHalfByte_lt b1 b2))]
  have h1 := shiftRight3_lt_32 _ (diffHalfByte_lt r1 r2)
  have h2 := shiftRight3_lt_32 _ (diffHalfByte_lt g1 g2)
  have h3 := shiftRight3_lt_32 _ (diffHalfByte_lt b1 b2)
  omega

/-- C6: `YCbCrLookup.dist_rgb` on the small table forms the 15-bit key from the
3-bit-right-shifted channel half-difference bytes (red in bits 14..10,
green in bits 9..5, blue in bits 4..0) and returns the entry of the
32768-entry table at that key; the entry is the distance function applied
to the sign-extended, doubled channel differences recovered from the key.
The statement is parametric in the per-entry distance function `f`
(`dist_ycbcr` in the source). -/
theorem dist_rgb_table_lookup (f : Int → Int → Int → Nat) (r1 g1 b1 r2 g2 b2 : Nat) :
    (YCbCrLookup.new_small f).length = 0x8000 ∧
      dist_rgb_index r1 g1 b1 r2 g2 b2 =
        (diffHalfByte r1 r2 >>> 3) * 2 ^ 10 + (diffHalfByte g1 g2 >>> 3) * 2 ^ 5
          + (diffHalfByte b1 b2 >>> 3) ∧
      YCbCrLookup.dist_rgb (YCbCrLookup.new_small f) r1 g1 b1 r2 g2 b2 =
        f (u8_as_i8 ((diffHalfByte r1 r2 >>> 3) <<< 3) * 2)
          (u8_as_i8 ((diffHalfByte g1 g2 >>> 3) <<< 3) * 2)
          (u8_as_i8 ((diffHalfByte b1 b2 >>> 3) <<< 3) * 2) := by
  have h1 := shiftRight3_lt_32 _ (diffHalfByte_lt r1 r2)
  have h2 := shiftRight3_lt_32 _ (diffHalfByte_lt g1 g2)
  have h3 := shiftRight3_lt_32 _ (diffHalfByte_lt b1 b2)
  have hkey : dist_rgb_index r1 g1 b1 r2 g2 b2 =
      (diffHalfByte r1 r2 >>> 3) * 1024 + (diffHalfByte g1 g2 >>> 3) * 32
        + (diffHalfByte b1 b2 >>> 3) := by
    unfold dist_rgb_index
    exact key_decomp _ _ _ h1 h2 h3
  refine ⟨new_small_length f, by rw [hkey]; norm_num, ?_⟩
  unfold YCbCrLookup.dist_rgb
  rw [hkey, new_small_getD f _ (by omega)]
  obtain ⟨f1, f2, f3⟩ := key_fields _ _ _ h1 h2 h3
  rw [f1, f2, f3, shiftLeft3_mod_256 _ h1, shiftLeft3_mod_256 _ h2, shiftLeft3_mod_256 _ h3]

/-- C5 (amended): `dist` returns the plain RGB table distance when both
alpha channels are 255; otherwise it returns
`(rgb_distance * min(alpha1, alpha2)) / 256 + |alpha1 - alpha2| * 255 * 256`,
the first term being the source's shift-right-by-8 approximation of
division by 255. -/
theorem dist_alpha_formula_amended (lookup : List Nat) (pix1 pix2 : Rgba8) :
    YCbCrLookup.dist lookup pix1 pix2 = dist_spec_amended lookup pix1 pix2 := by
  unfold YCbCrLookup.dist dist_spec_amended
  by_cases h : pix1.alpha = 255 ∧ pix2.alpha = 255
  · simp [h]
  · simp only [h, if_false]
    rw [Nat.shiftRight_eq_div_pow]
    rcases Nat.lt_or_ge pix1.alpha pix2.alpha with hlt | hge
    · have hmin : min pix1.alpha pix2.alpha = pix1.alpha := Nat.min_eq_left (Nat.le_of_lt hlt)
      have hmax : max pix1.alpha pix2.alpha = pix2.alpha := Nat.max_eq_right (Nat.le_of_lt hlt)
      simp only [hlt, if_pos, hmin, hmax]
      omega
    · have hmin : min pix1.alpha pix2.alpha = pix2.alpha := Nat.min_eq_right hge
      have hmax : max pix1.alpha pix2.alpha = pix1.alpha := Nat.max_eq_left hge
      have hnlt : ¬ pix1.alpha < pix2.alpha := Nat.not_lt.mpr hge
      simp only [hnlt, if_neg, if_false, hmin, hmax]
      omega

/-- C5 counterexample: at pixels (0,0,0,255) and (0,0,0,254) over a table
whose keyed entry is 65280, the code's `(d * a_min) >> 8` yields 64770 + 65280
while the spec's `(d * a_min) / 255` would yield 65024 + 65280. -/
theorem dist_alpha_formula_counterexample :
    YCbCrLookup.dist (List.replicate 0x8000 65280) ⟨0, 0, 0, 255⟩ ⟨0, 0, 0, 254⟩ ≠
      dist_spec_claimed (List.replicate 0x8000 65280) ⟨0, 0, 0, 255⟩ ⟨0, 0, 0, 254⟩ := by
  decide

lemma scale_with_config_zero_dim
    (sI : Nat → List Rgba8 → List Rgba8 → Nat → Nat → ScalerConfig → List Rgba8)
    (source : List Nat) (w h f : Nat) (cfg : ScalerConfig) (hz : w = 0 ∨ h = 0) :
    scale_with_config sI source w h f cfg = some [] := by
  unfold scale_with_config
  simp [hz]

lemma scale_with_config_pos
    (sI : Nat → List Rgba8 → List Rgba8 → Nat → Nat → ScalerConfig → List Rgba8)
    (source : List Nat) (w h f : Nat) (cfg : ScalerConfig)
    (hw : w ≠ 0) (hh : h ≠ 0) (hlen : source.length = w * h * 4)
    (hf0 : 0 < f) (hf6 : f ≤ 6) :
    scale_with_config sI source w h f cfg =
      some (pixelsToBytes (if f = 1 then bytesToPixels source
        else sI f (bytesToPixels source)
          (List.replicate (w * h * f * f) default) w h cfg)) := by
  unfold scale_with_config
  have hb : (bytesToPixels source).length = w * h := by
    rw [bytesToPixels_length, hlen]; omega
  simp [hw, hh, hlen, hb, hf0, Nat.not_lt.mpr hf6, hf6]

/-- C1 counterexample: with zero dimensions and a non-empty source,
`scale_with_config` at factor 1 returns the empty buffer, not a copy of the
source, so identity does not hold for every source buffer. -/
theorem factor_one_identity_counterexample :
    scale_with_config idScaleImage [1, 2, 3, 4] 0 0 1 defaultConfig = some [] ∧
      scale_with_config idScaleImage [1, 2, 3, 4] 0 0 1 defaultConfig ≠
        some [1, 2, 3, 4] := by
  decide

/-- C1 (amended): `xbrz_upscale` with clamped scale 1 returns its input
byte-for-byte for every buffer; `scale_with_config` with factor 1 returns
the source byte-for-byte whenever the source length equals w*h*4. -/
theorem factor_one_identity
    (sI : Nat → List Rgba8 → List Rgba8 → Nat → Nat → ScalerConfig → List Rgba8)
    (input source : List Nat) (w h scale : Nat) (q1 q2 q3 q4 : Rat)
    (cfg : ScalerConfig) :
    (min (max scale 1) 6 = 1 →
      xbrz_upscale sI input w h scale q1 q2 q3 q4 = some input) ∧
    (source.length = w * h * 4 →
      scale_with_config sI source w h 1 cfg = some source) := by
  constructor
  · intro hclamp
    unfold xbrz_upscale
    simp [hclamp]
  · intro hlen
    by_cases hz : w = 0 ∨ h = 0
    · rw [scale_with_config_zero_dim sI source w h 1 cfg hz]
      have h0 : source.length = 0 := by rcases hz with hz | hz <;> subst hz <;> omega
      rw [List.eq_nil_of_length_eq_zero h0]
    · push_neg at hz
      rw [scale_with_config_pos sI source w h 1 cfg hz.1 hz.2 hlen (by omega) (by omega),
        if_pos rfl, pixelsToBytes_bytesToPixels source (by omega)]

theorem factor_one_identity_witness :
    (min (max 1 1) 6 = 1 ∧
      xbrz_upscale idScaleImage [9, 8, 7, 6] 1 1 1 30 4 (18 / 5) (11 / 5) =
        some [9, 8, 7, 6]) ∧
    (([5, 6, 7, 8] : List Nat).length = 1 * 1 * 4 ∧
      scale_with_config idScaleImage [5, 6, 7, 8] 1 1 1 defaultConfig =
        some [5, 6, 7, 8]) :=
  ⟨⟨by decide,
    (factor_one_identity idScaleImage [9, 8, 7, 6] [5, 6, 7, 8] 1 1 1 30 4 (18 / 5)
      (11 / 5) defaultConfig).1 (by decide)⟩,
   ⟨by decide,
    (factor_one_identity idScaleImage [9, 8, 7, 6] [5, 6, 7, 8] 1 1 1 30 4 (18 / 5)
      (11 / 5) defaultConfig).2 (by decide)⟩⟩

/-- C2: for every factor in [2,6], every length-preserving scaler body and
every source of length w*h*4, `scale_with_config` returns a buffer of byte
length exactly (w*factor) * (h*factor) * 4. -/
theorem dimension_law
    (sI : Nat → List Rgba8 → List Rgba8 → Nat → Nat → ScalerConfig → List Rgba8)
    (hsi : ∀ f s d w h c, (sI f s d w h c).length = d.length)
    (source : List Nat) (w h factor : Nat) (cfg : ScalerConfig)
    (hf2 : 2 ≤ factor) (hf6 : factor ≤ 6)
    (hlen : source.length = w * h * 4) :
    ∃ out, scale_with_config sI source w h factor cfg = some out ∧
      out.length = (w * factor) * (h * factor) * 4 := by
  by_cases hz : w = 0 ∨ h = 0
  · refine ⟨[], scale_with_config_zero_dim sI source w h factor cfg hz, ?_⟩
    rcases hz with hz | hz <;> simp [hz]
  · push_neg at hz
    refine ⟨_, scale_with_config_pos sI source w h factor cfg hz.1 hz.2 hlen
      (by omega) hf6, ?_⟩
    rw [if_neg (by omega), pixelsToBytes_length, hsi, List.length_replicate]
    ring

theorem dimension_law_witness :
    ∃ out,
      scale_with_config idScaleImage (List.replicate 16 0) 2 2 2 defaultConfig =
        some out ∧ out.length = (2 * 2) * (2 * 2) * 4 :=
  dimension_law idScaleImage (fun _ _ _ _ _ _ => rfl) (List.replicate 16 0) 2 2 2
    defaultConfig (by decide) (by decide) (by decide)

/-- C3: with positive width and height, `scale_with_config` panics (returns
no buffer) exactly when the source length differs from w*h*4 or the factor
is outside 1..=6. -/
theorem invalid_input_panics
    (sI : Nat → List Rgba8 → List Rgba8 → Nat → Nat → ScalerConfig → List Rgba8)
    (source : List Nat) (w h factor : Nat) (cfg : ScalerConfig)
    (hw : 1 ≤ w) (hh : 1 ≤ h) :
    scale_with_config sI source w h factor cfg = none ↔
      (source.length ≠ w * h * 4 ∨ factor = 0 ∨ 6 < factor) := by
  constructor
  · intro hnone
    by_contra hc
    push_neg at hc
    obtain ⟨hlen, hf0, hf6⟩ := hc
    rw [scale_with_config_pos sI source w h factor cfg (by omega) (by omega) hlen
      (by omega) (by omega)] at hnone
    exact Option.noConfusion hnone
  · intro hbad
    unfold scale_with_config
    have hz : ¬ (w = 0 ∨ h = 0) := by omega
    rw [if_neg hz]
    split_ifs with h1 h2 h3 h4 <;>
      first
        | rfl
        | (exfalso
           have hb : (bytesToPixels source).length = w * h := by
             rw [bytesToPixels_length]
             omega
           rcases hbad with hlen | hf0 | hf6 <;> omega)
        | simp

theorem invalid_input_panics_witness :
    1 ≤ 1 ∧ 1 ≤ 1 ∧
      (scale_with_config idScaleImage [0] 1 1 3 defaultConfig = none ↔
        (([0] : List Nat).length ≠ 1 * 1 * 4 ∨ 3 = 0 ∨ 6 < 3)) :=
  ⟨by decide, by decide,
    invalid_input_panics idScaleImage [0] 1 1 3 defaultConfig (by decide) (by decide)⟩

/-- C4 counterexample: with zero width, a non-empty source and requested
factor 3, `scale_with_config` does not abort; it returns an (empty) output
buffer. -/
theorem zero_dim_no_abort_counterexample :
    scale_with_config idScaleImage [1, 2, 3, 4] 0 1 3 defaultConfig = some [] ∧
      scale_with_config idScaleImage [1, 2, 3, 4] 0 1 3 defaultConfig ≠ none := by
  decide

/-- C4 (amended): with zero width or zero height and a factor greater
than 1, `scale_with_config` returns an empty buffer instead of failing
fatally. -/
theorem zero_dim_factor_gt1_returns_empty
    (sI : Nat → List Rgba8 → List Rgba8 → Nat → Nat → ScalerConfig → List Rgba8)
    (source : List Nat) (w h f : Nat) (cfg : ScalerConfig)
    (hz : w = 0 ∨ h = 0) (hf : 1 < f) :
    scale_with_config sI source w h f cfg = some [] :=
  scale_with_config_zero_dim sI source w h f cfg hz

theorem zero_dim_factor_gt1_returns_empty_witness :
    ((0 : Nat) = 0 ∨ (7 : Nat) = 0) ∧ (1 : Nat) < 4 ∧
      scale_with_config idScaleImage [1, 2, 3] 0 7 4 defaultConfig = some [] :=
  ⟨Or.inl rfl, by decide,
    zero_dim_factor_gt1_returns_empty idScaleImage [1, 2, 3] 0 7 4 defaultConfig
      (Or.inl rfl) (by decide)⟩

/-- C7: `xbrz_upscale` behaves exactly as if called with the scale clamped
to [1, 6]; a clamped scale of 1 returns a copy of the input; and with a
valid source length no scale value can reach the core's fatal factor-range
check. -/
theorem wrapper_clamps_scale
    (sI : Nat → List Rgba8 → List Rgba8 → Nat → Nat → ScalerConfig → List Rgba8)
    (input : List Nat) (w h scale : Nat) (q1 q2 q3 q4 : Rat) :
    xbrz_upscale sI input w h scale q1 q2 q3 q4 =
        xbrz_upscale sI input w h (min (max scale 1) 6) q1 q2 q3 q4 ∧
      (min (max scale 1) 6 = 1 →
        xbrz_upscale sI input w h scale q1 q2 q3 q4 = some input) ∧
      (input.length = w * h * 4 →
        xbrz_upscale sI input w h scale q1 q2 q3 q4 ≠ none) := by
  refine ⟨?_, ?_, ?_⟩
  · unfold xbrz_upscale
    have hc : min (max (min (max scale 1) 6) 1) 6 = min (max scale 1) 6 := by omega
    rw [hc]
  · intro hclamp
    unfold xbrz_upscale
    simp [hclamp]
  · intro hlen
    unfold xbrz_upscale
    by_cases hclamp : min (max scale 1) 6 = 1
    · simp [hclamp]
    · rw [if_neg hclamp]
      by_cases hz : w = 0 ∨ h = 0
      · rw [scale_with_config_zero_dim _ _ _ _ _ _ hz]
        exact Option.noConfusion
      · push_neg at hz
        rw [scale_with_config_pos _ _ _ _ _ _ hz.1 hz.2 hlen (by omega) (by omega)]
        exact Option.noConfusion

theorem wrapper_clamps_scale_witness :
    (xbrz_upscale idScaleImage [1, 2, 3, 4] 1 1 99 30 4 (18 / 5) (11 / 5) =
        xbrz_upscale idScaleImage [1, 2, 3, 4] 1 1 (min (max 99 1) 6) 30 4 (18 / 5)
          (11 / 5)) ∧
      (min (max 0 1) 6 = 1 ∧
        xbrz_upscale idScaleImage [1, 2, 3, 4] 1 1 0 30 4 (18 / 5) (11 / 5) =
          some [1, 2, 3, 4]) ∧
      (([1, 2, 3, 4] : List Nat).length = 1 * 1 * 4 ∧
        xbrz_upscale idScaleImage [1, 2, 3, 4] 1 1 99 30 4 (18 / 5) (11 / 5) ≠
          none) :=
  ⟨(wrapper_clamps_scale idScaleImage [1, 2, 3, 4] 1 1 99 30 4 (18 / 5) (11 / 5)).1,
   ⟨by decide,
    (wrapper_clamps_scale idScaleImage [1, 2, 3, 4] 1 1 0 30 4 (18 / 5) (11 / 5)).2.1
      (by decide)⟩,
   ⟨by decide,
    (wrapper_clamps_scale idScaleImage [1, 2, 3, 4] 1 1 99 30 4 (18 / 5) (11 / 5)).2.2
      (by decide)⟩⟩

/-- C10: whenever the width or the height is zero, `scale_with_config`
returns the empty buffer for every source slice and every factor, with no
length or factor validation and no panic. -/
theorem zero_dimension_returns_empty
    (sI : Nat → List Rgba8 → List Rgba8 → Nat → Nat → ScalerConfig → List Rgba8)
    (source : List Nat) (w h f : Nat) (cfg : ScalerConfig)
    (hz : w = 0 ∨ h = 0) :
    scale_with_config sI source w h f cfg = some [] := by
  unfold scale_with_config
  simp [hz]

theorem zero_dimension_returns_empty_witness :
    ((5 : Nat) = 0 ∨ (0 : Nat) = 0) ∧
      scale_with_config idScaleImage [1, 2, 3, 4, 5] 5 0 99 defaultConfig =
        some [] :=
  ⟨Or.inr rfl,
    zero_dimension_returns_empty idScaleImage [1, 2, 3, 4, 5] 5 0 99 defaultConfig
      (Or.inr rfl)⟩
